import Mathlib

/-!
Shallow embedding of the rag-service core (fda-guidance-navigator):
token-bounded chunking with overlap (`app/services/chunking.py`),
transactional passage replacement (`app/routers/ingest.py` with
`app/database.py`), nearest-neighbour retrieval (`app/services/retrieval.py`),
context building (`app/services/llm.py`) and session persistence
(`app/routers/query.py`).

Texts are modelled at the token level: the external tokenizer's `encode`
turns a page's text into a token sequence (`List Nat`), and `decode` is
carried as an abstract parameter where the code decodes a window back to
text.  Machine floats of the embedding vectors are modelled as rationals,
and the pgvector distance operator `<=>` is an abstract parameter.
-/

namespace FdaRag

/-- One chunk dict as produced by `ChunkingService.chunk_text`: the source
stores `content = decode(window)`; we carry the token window itself, the
decode being the external tokenizer applied at the boundary. -/
structure Chunk where
  content : List Nat
  page_start : Option Nat
  section_title : Option String
  chunk_index : Nat
  token_count : Nat
deriving DecidableEq

/-- The `while i < len(tokens)` loop of `ChunkingService.chunk_text`,
with explicit fuel: the Python loop advances `i` by
`chunk_size - chunk_overlap` each iteration and has no guard against a
non-positive stride, so it need not terminate; `none` means the given
fuel bound was not enough (for unbounded fuel: divergence).  `i` is kept
as a natural number: Python's `i += chunk_size - chunk_overlap` leaves
`i ≤ 0 < len(tokens)` whenever `overlap ≥ size`, which the truncated
subtraction (stride `0`, `i` frozen) models with the same loop behaviour. -/
def chunkTextGo (size overlap : Nat) (tokens : List Nat)
    (page_start : Option Nat) (section_title : Option String) :
    Nat → Nat → Nat → List Chunk → Option (List Chunk)
  | 0, _, _, _ => none
  | fuel + 1, i, idx, acc =>
    if i < tokens.length then
      let chunk_end := min (i + size) tokens.length
      let window := (tokens.drop i).take (chunk_end - i)
      chunkTextGo size overlap tokens page_start section_title fuel
        (i + (size - overlap)) (idx + 1)
        ({ content := window, page_start := page_start,
           section_title := section_title, chunk_index := idx,
           token_count := window.length } :: acc)
    else
      some acc.reverse

/-- `ChunkingService.chunk_text` on an already-encoded token sequence.
`tokens.length + 1` units of fuel are sufficient whenever the stride
`size - overlap` is positive, so in the terminating regime this is the
function the Python code computes. -/
def chunkText (size overlap : Nat) (tokens : List Nat)
    (page_start : Option Nat) (section_title : Option String) :
    Option (List Chunk) :=
  chunkTextGo size overlap tokens page_start section_title
    (tokens.length + 1) 0 0 []

/-- The reassignment `chunk["chunk_index"] = current_chunk_index` performed
by `ChunkingService.chunk_document` over one page's chunk list. -/
def reindexFrom : Nat → List Chunk → List Chunk
  | _, [] => []
  | n, c :: cs => { c with chunk_index := n } :: reindexFrom (n + 1) cs

/-- Page loop of `ChunkingService.chunk_document`: pages are (page number,
encoded text) pairs; ordinals are assigned globally across pages. -/
def chunkDocumentGo (size overlap : Nat) :
    List (Nat × List Nat) → Nat → Option (List Chunk)
  | [], _ => some []
  | (pnum, toks) :: rest, idx =>
    match chunkText size overlap toks (some pnum) none with
    | none => none
    | some cs =>
      match chunkDocumentGo size overlap rest (idx + cs.length) with
      | none => none
      | some csRest => some (reindexFrom idx cs ++ csRest)

/-- `ChunkingService.chunk_document`. -/
def chunkDocument (size overlap : Nat) (pages : List (Nat × List Nat)) :
    Option (List Chunk) :=
  chunkDocumentGo size overlap pages 0

/-- With `overlap ≥ size` the loop body of `chunk_text` leaves `i` unchanged
(stride `size - overlap = 0`), so on a non-empty token sequence the loop
condition `i < len(tokens)` stays true and every fuel bound is exhausted. -/
theorem chunkTextGo_stuck (size overlap : Nat) (tokens : List Nat)
    (ps : Option Nat) (st : Option String)
    (hov : size ≤ overlap) (hne : 0 < tokens.length) :
    ∀ fuel idx acc,
      chunkTextGo size overlap tokens ps st fuel 0 idx acc = none := by
  intro fuel
  induction fuel with
  | zero => intro idx acc; rfl
  | succ n ih =>
    intro idx acc
    rw [chunkTextGo, if_pos hne]
    simpa [Nat.sub_eq_zero_of_le hov] using ih (idx + 1) _

/-- C1. The spec requires configurations with `chunk_overlap ≥ chunk_size` to
be rejected before chunking (fail fast rather than loop).  The code has no
such rejection: with `chunk_size = 512 = chunk_overlap` on a page encoding to
one token, the `chunk_text` loop exhausts every fuel bound — it never
terminates, instead of failing fast. -/
theorem chunk_text_overlap_ge_size_loops_forever :
    ∀ fuel idx acc,
      chunkTextGo 512 512 [7] (some 1) none fuel 0 idx acc = none :=
  fun fuel idx acc =>
    chunkTextGo_stuck 512 512 [7] (some 1) none (Nat.le_refl 512)
      (by decide) fuel idx acc

set_option maxRecDepth 4000 in
/-- C3. Two pages encoding to 600 and 100 tokens, with `chunk_size = 512` and
`chunk_overlap = 50`, yield exactly three passages: page 1 gives the token
windows `[0:512]` and `[462:600]`, page 2 gives `[0:100]`; chunk indices are
0, 1, 2, page starts 1, 1, 2, token counts the window lengths 512, 138, 100. -/
theorem chunk_document_two_page_scenario :
    chunkDocument 512 50 [(1, List.range 600), (2, List.range 100)] =
      some
        [{ content := (List.range 600).take 512, page_start := some 1,
           section_title := none, chunk_index := 0, token_count := 512 },
         { content := (List.range 600).drop 462, page_start := some 1,
           section_title := none, chunk_index := 1, token_count := 138 },
         { content := List.range 100, page_start := some 2,
           section_title := none, chunk_index := 2, token_count := 100 }] := by
  rfl

/-- Transactional execution as implemented by `get_db_cursor`
(`app/database.py`): the body runs on one connection, `conn.commit()` runs
only if the whole body succeeded, and any exception triggers
`conn.rollback()` — committed state is then unchanged — and re-raises. -/
def runTxn {σ ε : Type} (st : σ) (body : σ → Except ε σ) : σ × Option ε :=
  match body st with
  | .ok st' => (st', none)
  | .error e => (st, some e)

/-- Embedding vector: floats modelled as rationals. -/
abbrev Emb := List ℚ

/-- One row of the `DocumentChunk` table. -/
structure PassageRow where
  id : String
  documentId : String
  content : List Nat
  pageStart : Option Nat
  sectionTitle : Option String
  chunkIndex : Nat
  embedding : Option Emb
deriving DecidableEq

/-- Committed contents of the `DocumentChunk` table. -/
abbrev PassageStore := List PassageRow

/-- The row built by the `INSERT INTO "DocumentChunk"` statement of
`process_document` for the `n`-th chunk/embedding pair; `idGen n` stands for
the fresh `uuid.uuid4()`. -/
def mkPassageRow (docId : String) (idGen : Nat → String) (n : Nat)
    (c : Chunk) (e : Emb) : PassageRow :=
  { id := idGen n, documentId := docId, content := c.content,
    pageStart := c.page_start, sectionTitle := c.section_title,
    chunkIndex := c.chunk_index, embedding := some e }

/-- The insert loop of `process_document` over `zip(chunks, embeddings)`;
`insertOk` injects a store failure for a given row (a failing `execute`
raises before the row is added). -/
def insertChunks (docId : String) (idGen : Nat → String)
    (insertOk : PassageRow → Bool) :
    List (Chunk × Emb) → Nat → PassageStore → Except Unit PassageStore
  | [], _, s => .ok s
  | (c, e) :: rest, n, s =>
    let row := mkPassageRow docId idGen n c e
    if insertOk row then insertChunks docId idGen insertOk rest (n + 1) (s ++ [row])
    else .error ()

/-- The store phase of `process_document`: inside one transaction, delete
every existing row of the document, then insert the new rows. -/
def storeChunksBody (docId : String) (idGen : Nat → String)
    (insertOk : PassageRow → Bool) (chunks : List Chunk) (embs : List Emb)
    (s : PassageStore) : Except Unit PassageStore :=
  insertChunks docId idGen insertOk (chunks.zip embs) 0
    (s.filter (fun r => !(r.documentId == docId)))

/-- The rows the insert loop adds when every insert succeeds (the new
passage set of the document). -/
def mkRows (docId : String) (idGen : Nat → String) :
    List (Chunk × Emb) → Nat → List PassageRow
  | [], _ => []
  | (c, e) :: rest, n => mkPassageRow docId idGen n c e :: mkRows docId idGen rest (n + 1)

/-- `process_document` (`app/routers/ingest.py`): extract pages (given here
already extracted and encoded), return early if nothing was extracted,
otherwise chunk, embed, and replace the document's rows inside one
transaction.  `none` models divergence of the chunking loop; otherwise the
result is the committed store paired with `some ()` when the task re-raised
a store failure. -/
def processDocument (size overlap : Nat) (embed : List Nat → Emb)
    (idGen : Nat → String) (insertOk : PassageRow → Bool) (docId : String)
    (pages : List (Nat × List Nat)) (st : PassageStore) :
    Option (PassageStore × Option Unit) :=
  if pages.isEmpty then some (st, none)
  else
    match chunkDocument size overlap pages with
    | none => none
    | some chunks =>
      let embs := chunks.map (fun c => embed c.content)
      some (runTxn st (storeChunksBody docId idGen insertOk chunks embs))

theorem insertChunks_cases (docId : String) (idGen : Nat → String)
    (insertOk : PassageRow → Bool) :
    ∀ (ps : List (Chunk × Emb)) (n : Nat) (s : PassageStore),
      insertChunks docId idGen insertOk ps n s = .error () ∨
      insertChunks docId idGen insertOk ps n s =
        .ok (s ++ mkRows docId idGen ps n) := by
  intro ps
  induction ps with
  | nil => intro n s; right; simp [insertChunks, mkRows]
  | cons p rest ih =>
    intro n s
    obtain ⟨c, e⟩ := p
    by_cases hok : insertOk (mkPassageRow docId idGen n c e)
    · rcases ih (n + 1) (s ++ [mkPassageRow docId idGen n c e]) with h | h
      · left; simpa [insertChunks, hok] using h
      · right; simpa [insertChunks, hok, mkRows] using h
    · left; simp [insertChunks, hok]

theorem mkRows_documentId (docId : String) (idGen : Nat → String) :
    ∀ (ps : List (Chunk × Emb)) (n : Nat),
      ∀ row ∈ mkRows docId idGen ps n, row.documentId = docId := by
  intro ps
  induction ps with
  | nil => intro n row h; simp [mkRows] at h
  | cons p rest ih =>
    intro n row h
    obtain ⟨c, e⟩ := p
    rcases List.mem_cons.mp h with h | h
    · rw [h]; rfl
    · exact ih (n + 1) row h

/-- C2. The store phase of `process_document` is atomic: delete and inserts
run in one transaction, so either the transaction fails and the committed
store is exactly what it was before, or it commits and the committed store
is the prior store minus every row of the document plus exactly the new
rows — each of which belongs to the document. -/
theorem replace_document_passages_atomic (docId : String)
    (idGen : Nat → String) (insertOk : PassageRow → Bool)
    (chunks : List Chunk) (embs : List Emb) (st : PassageStore) :
    ((runTxn st (storeChunksBody docId idGen insertOk chunks embs)).2.isSome →
      (runTxn st (storeChunksBody docId idGen insertOk chunks embs)).1 = st) ∧
    ((runTxn st (storeChunksBody docId idGen insertOk chunks embs)).2 = none →
      (runTxn st (storeChunksBody docId idGen insertOk chunks embs)).1 =
        st.filter (fun r => !(r.documentId == docId)) ++
          mkRows docId idGen (chunks.zip embs) 0) ∧
    (∀ row ∈ mkRows docId idGen (chunks.zip embs) 0, row.documentId = docId) := by
  rcases insertChunks_cases docId idGen insertOk (chunks.zip embs) 0
      (st.filter (fun r => !(r.documentId == docId))) with h | h
  · refine ⟨fun _ => ?_, fun hnone => ?_, mkRows_documentId docId idGen _ 0⟩
    · simp [runTxn, storeChunksBody, h]
    · simp [runTxn, storeChunksBody, h] at hnone
  · refine ⟨fun hsome => ?_, fun _ => ?_, mkRows_documentId docId idGen _ 0⟩
    · simp [runTxn, storeChunksBody, h] at hsome
    · simp [runTxn, storeChunksBody, h]

/-- A committed document row used in the counterexample to C9. -/
def oldRow : PassageRow :=
  { id := "p0", documentId := "d1", content := [1], pageStart := some 1,
    sectionTitle := none, chunkIndex := 0, embedding := none }

/-- C9 counterexample. A document that already has one stored passage is
re-ingested and the source yields no extractable text: `process_document`
returns before the delete, so the run succeeds (no hard failure) but the
document still has its one old passage — not zero stored passages as the
claim states. -/
theorem empty_extraction_keeps_old_passages :
    processDocument 512 50 (fun _ => []) (fun _ => "fresh") (fun _ => true)
        "d1" [] [oldRow] = some ([oldRow], none) ∧
    ([oldRow].filter (fun r => r.documentId == "d1")).length = 1 := by
  constructor
  · rfl
  · rfl

/-- C9 amended. When the source yields no extractable text,
`process_document` returns early with no error — the ingestion is not a
hard failure and stores no new passages — but the committed store is left
exactly as it was, so passages from an earlier ingestion survive. -/
theorem empty_extraction_no_error_store_unchanged (size overlap : Nat)
    (embed : List Nat → Emb) (idGen : Nat → String)
    (insertOk : PassageRow → Bool) (docId : String) (st : PassageStore) :
    processDocument size overlap embed idGen insertOk docId [] st =
      some (st, none) := by
  rfl

/-- Python truthiness of an `Optional[str]`: `None` and `""` are falsy. -/
def optTruthy : Option String → Bool
  | none => false
  | some s => !(s == "")

/-- One row of the `ChatSession` table. -/
structure ChatSessionRow where
  id : String
  createdAt : Nat
  updatedAt : Nat
deriving DecidableEq

/-- One row of the `ChatMessage` table. -/
structure ChatMessageRow where
  id : String
  sessionId : String
  role : String
  content : String
  createdAt : Nat
deriving DecidableEq

/-- Committed contents of the chat tables. -/
structure ChatStore where
  sessions : List ChatSessionRow
  messages : List ChatMessageRow
deriving DecidableEq

/-- The persistence block of the synchronous `query_documents`
(`app/routers/query.py`), run inside the single transaction opened by
`with get_db_cursor()`: optional `ChatSession` insert (only when the request
carried no truthy session id; `ON CONFLICT DO NOTHING`), the user-message
insert, the assistant-message insert, the `updatedAt` update.  Every
`NOW()` yields `now`: PostgreSQL's `NOW()` is the transaction start time,
constant across the statements of one transaction.  `okStep` injects a
store failure at a given statement (a failing `execute` raises before its
row is written). -/
def exchangeBody (newSession : Bool) (sid question answer uid1 uid2 : String)
    (now : Nat) (okStep : Nat → Bool) (st : ChatStore) : Except Unit ChatStore :=
  if newSession && !okStep 0 then .error () else
  let st0 : ChatStore :=
    if newSession then
      if st.sessions.any (fun s => s.id == sid) then st
      else { st with sessions :=
        st.sessions ++ [{ id := sid, createdAt := now, updatedAt := now }] }
    else st
  if !okStep 1 then .error () else
  let st1 : ChatStore := { st0 with messages := st0.messages ++
    [{ id := uid1, sessionId := sid, role := "user", content := question,
       createdAt := now }] }
  if !okStep 2 then .error () else
  let st2 : ChatStore := { st1 with messages := st1.messages ++
    [{ id := uid2, sessionId := sid, role := "assistant", content := answer,
       createdAt := now }] }
  if !okStep 3 then .error () else
  .ok { st2 with sessions :=
    st2.sessions.map (fun s => if s.id == sid then { s with updatedAt := now } else s) }

/-- The save-messages step of the synchronous `query_documents`:
`session_id = request.session_id or str(uuid.uuid4())` (`freshId` stands for
the fresh uuid, `uid1`/`uid2` for the message uuids), then the transactional
persistence block.  Returns the session id used, the committed store, and
`some ()` when persistence failed (the transaction rolled back). -/
def saveExchange (reqSessionId : Option String)
    (question answer freshId uid1 uid2 : String) (now : Nat)
    (okStep : Nat → Bool) (st : ChatStore) : String × ChatStore × Option Unit :=
  let sid := if optTruthy reqSessionId then reqSessionId.getD "" else freshId
  let r := runTxn st
    (exchangeBody (!optTruthy reqSessionId) sid question answer uid1 uid2 now okStep)
  (sid, r.1, r.2)


theorem exchangeBody_ok_messages (newSession : Bool)
    (sid q a u1 u2 : String) (now : Nat) (okStep : Nat → Bool)
    (st st' : ChatStore)
    (h : exchangeBody newSession sid q a u1 u2 now okStep st = .ok st') :
    st'.messages = st.messages ++
      [{ id := u1, sessionId := sid, role := "user", content := q,
         createdAt := now },
       { id := u2, sessionId := sid, role := "assistant", content := a,
         createdAt := now }] := by
  by_cases h0 : okStep 0 <;> by_cases h1 : okStep 1 <;>
    by_cases h2 : okStep 2 <;> by_cases h3 : okStep 3 <;>
    cases newSession <;>
    by_cases hex : st.sessions.any (fun s => s.id == sid) <;>
    simp [exchangeBody, h0, h1, h2, h3, hex] at h <;>
    simp [← h]

theorem exchangeBody_ok_sessions_of_not_new (sid q a u1 u2 : String)
    (now : Nat) (okStep : Nat → Bool) (st st' : ChatStore)
    (h : exchangeBody false sid q a u1 u2 now okStep st = .ok st') :
    st'.sessions.map ChatSessionRow.id = st.sessions.map ChatSessionRow.id := by
  by_cases h1 : okStep 1 <;> by_cases h2 : okStep 2 <;> by_cases h3 : okStep 3 <;>
    simp [exchangeBody, h1, h2, h3] at h
  rw [← h]
  simp only [List.map_map]
  apply List.map_congr_left
  intro s _
  by_cases hs : s.id = sid <;> simp [hs]

theorem exchangeBody_ok_session_exists_of_new (sid q a u1 u2 : String)
    (now : Nat) (okStep : Nat → Bool) (st st' : ChatStore)
    (h : exchangeBody true sid q a u1 u2 now okStep st = .ok st') :
    ∃ s ∈ st'.sessions, s.id = sid := by
  by_cases h0 : okStep 0 <;> by_cases h1 : okStep 1 <;>
    by_cases h2 : okStep 2 <;> by_cases h3 : okStep 3 <;>
    by_cases hex : st.sessions.any (fun s => s.id == sid) <;>
    simp [exchangeBody, h0, h1, h2, h3, hex] at h
  · rcases List.any_eq_true.mp hex with ⟨s, hs, hid⟩
    have hid2 : s.id = sid := by simpa using hid
    refine ⟨{ s with updatedAt := now }, ?_, by simp [hid2]⟩
    rw [← h]
    simp only [List.mem_map]
    exact ⟨s, hs, by simp [hid2]⟩
  · refine ⟨{ id := sid, createdAt := now, updatedAt := now }, ?_, rfl⟩
    rw [← h]
    simp

/-- C6. Persistence of one synchronous query exchange is all-or-nothing:
the optional session insert, both message inserts and the session update
run in the one transaction opened by `get_db_cursor`, so on a store failure
the committed store is exactly what it was before (zero new messages), and
on success exactly two new messages — the user message then the assistant
message — are appended for the session id used. -/
theorem query_persistence_all_or_nothing
    (req : Option String) (q a fresh u1 u2 : String) (now : Nat)
    (okStep : Nat → Bool) (st : ChatStore) :
    ((saveExchange req q a fresh u1 u2 now okStep st).2.2.isSome →
      (saveExchange req q a fresh u1 u2 now okStep st).2.1 = st) ∧
    ((saveExchange req q a fresh u1 u2 now okStep st).2.2 = none →
      (saveExchange req q a fresh u1 u2 now okStep st).2.1.messages =
        st.messages ++
          [{ id := u1, sessionId := (saveExchange req q a fresh u1 u2 now okStep st).1,
             role := "user", content := q, createdAt := now },
           { id := u2, sessionId := (saveExchange req q a fresh u1 u2 now okStep st).1,
             role := "assistant", content := a, createdAt := now }]) := by
  cases hbody : exchangeBody (!optTruthy req)
      (if optTruthy req then req.getD "" else fresh) q a u1 u2 now okStep st with
  | error e =>
    constructor
    · intro _; simp [saveExchange, runTxn, hbody]
    · intro hnone; exfalso; simp [saveExchange, runTxn, hbody] at hnone
  | ok st2 =>
    constructor
    · intro hsome; exfalso; simp [saveExchange, runTxn, hbody] at hsome
    · intro _
      have hmsg := exchangeBody_ok_messages _ _ _ _ _ _ _ _ _ _ hbody
      simp [saveExchange, runTxn, hbody, hmsg]

/-- C7 amended. The session record is created only when the caller supplied
no (or an empty) session id, in which case a record carrying the freshly
minted id exists after a successful exchange; when the caller supplies a
session id, the set of session-record ids is left unchanged — no record is
created even if none exists for that id. -/
theorem session_record_only_when_id_unsupplied
    (req : Option String) (q a fresh u1 u2 : String) (now : Nat)
    (okStep : Nat → Bool) (st : ChatStore) :
    (optTruthy req = false →
      (saveExchange req q a fresh u1 u2 now okStep st).2.2 = none →
        ∃ s ∈ (saveExchange req q a fresh u1 u2 now okStep st).2.1.sessions,
          s.id = fresh) ∧
    (optTruthy req = true →
      (saveExchange req q a fresh u1 u2 now okStep st).2.1.sessions.map
          ChatSessionRow.id =
        st.sessions.map ChatSessionRow.id) := by
  constructor
  · intro hreq hnone
    cases hbody : exchangeBody true fresh q a u1 u2 now okStep st with
    | error e => exfalso; simp [saveExchange, runTxn, hreq, hbody] at hnone
    | ok st2 =>
      have hex :=
        exchangeBody_ok_session_exists_of_new fresh q a u1 u2 now okStep st st2 hbody
      simpa [saveExchange, runTxn, hreq, hbody] using hex
  · intro hreq
    cases hbody : exchangeBody false (req.getD "") q a u1 u2 now okStep st with
    | error e => simp [saveExchange, runTxn, hreq, hbody]
    | ok st2 =>
      have hids :=
        exchangeBody_ok_sessions_of_not_new (req.getD "") q a u1 u2 now okStep st st2 hbody
      simpa [saveExchange, runTxn, hreq, hbody] using hids

/-- C7 counterexample. A caller-supplied session id `"s1"` with no existing
session record: the exchange persists both messages under `"s1"` yet
creates no session record — the code tests `request.session_id`, not
whether a record exists. -/
theorem supplied_session_id_record_not_created :
    (saveExchange (some "s1") "q" "a" "fresh" "u1" "u2" 5 (fun _ => true)
        ⟨[], []⟩).2.2 = none ∧
    (saveExchange (some "s1") "q" "a" "fresh" "u1" "u2" 5 (fun _ => true)
        ⟨[], []⟩).2.1.sessions = [] ∧
    ((saveExchange (some "s1") "q" "a" "fresh" "u1" "u2" 5 (fun _ => true)
        ⟨[], []⟩).2.1.messages.map (fun m => m.sessionId)) = ["s1", "s1"] :=
  ⟨rfl, rfl, rfl⟩

/-- C8 amended. For every successfully persisted exchange, the user message
and then the assistant message are appended in that order, and both carry
the same creation timestamp — the transaction's `NOW()` — so the
timestamps are non-decreasing but not strictly increasing. -/
theorem exchange_message_timestamps_share_transaction_time
    (req : Option String) (q a fresh u1 u2 : String) (now : Nat)
    (okStep : Nat → Bool) (st : ChatStore)
    (h : (saveExchange req q a fresh u1 u2 now okStep st).2.2 = none) :
    ∃ u asst : ChatMessageRow,
      (saveExchange req q a fresh u1 u2 now okStep st).2.1.messages =
        st.messages ++ [u, asst] ∧
      u.role = "user" ∧ asst.role = "assistant" ∧
      u.createdAt = now ∧ asst.createdAt = now ∧
      u.createdAt ≤ asst.createdAt ∧ ¬u.createdAt < asst.createdAt := by
  cases hbody : exchangeBody (!optTruthy req)
      (if optTruthy req then req.getD "" else fresh) q a u1 u2 now okStep st with
  | error e => exfalso; simp [saveExchange, runTxn, hbody] at h
  | ok st2 =>
    have hmsg := exchangeBody_ok_messages _ _ _ _ _ _ _ _ _ _ hbody
    refine
      ⟨{ id := u1, sessionId := (saveExchange req q a fresh u1 u2 now okStep st).1,
         role := "user", content := q, createdAt := now },
       { id := u2, sessionId := (saveExchange req q a fresh u1 u2 now okStep st).1,
         role := "assistant", content := a, createdAt := now },
       ?_, rfl, rfl, rfl, rfl, le_refl now, lt_irrefl now⟩
    simp [saveExchange, runTxn, hbody, hmsg]

/-- C8 counterexample. A successfully persisted exchange whose user and
assistant messages both carry creation timestamp 5 (both `NOW()` calls are
in one transaction): the message timestamps are not strictly increasing in
append order. -/
theorem exchange_timestamps_not_strictly_increasing :
    (saveExchange none "q" "a" "f" "u1" "u2" 5 (fun _ => true) ⟨[], []⟩).2.2 =
      none ∧
    ((saveExchange none "q" "a" "f" "u1" "u2" 5 (fun _ => true)
        ⟨[], []⟩).2.1.messages.map (fun m => m.role)) = ["user", "assistant"] ∧
    ((saveExchange none "q" "a" "f" "u1" "u2" 5 (fun _ => true)
        ⟨[], []⟩).2.1.messages.map (fun m => m.createdAt)) = [5, 5] ∧
    ¬List.Chain' (· < ·)
        ((saveExchange none "q" "a" "f" "u1" "u2" 5 (fun _ => true)
          ⟨[], []⟩).2.1.messages.map (fun m => m.createdAt)) := by
  refine ⟨rfl, rfl, rfl, ?_⟩
  show ¬List.Chain' (· < ·) [5, 5]
  simp [List.chain'_cons]

/-- Default `top_k` of `RetrievalService` (`RetrievalService(top_k=5)` via the
default parameter value). -/
def defaultTopK : Nat := 5

/-- `k = top_k or self.top_k` in `search_similar_chunks`: Python truthiness
of an `Optional[int]` makes both `None` and `0` fall back to the default. -/
def effectiveTopK (top_k : Option Nat) (default : Nat) : Nat :=
  match top_k with
  | none => default
  | some n => if n = 0 then default else n

/-- One row of the `GuidanceDocument` table (the columns retrieval reads). -/
structure GuidanceDoc where
  id : String
  title : String
  fdaDocumentId : String
deriving DecidableEq

/-- One retrieval-result dict of `search_similar_chunks` (`content` is the
stored text, here the decode of the stored token window). -/
structure RChunk where
  id : String
  document_id : String
  content : String
  page_start : Option Nat
  section_title : Option String
  chunk_index : Nat
  title : String
  fda_document_id : String
  similarity : ℚ
deriving DecidableEq

/-- The `JOIN "GuidanceDocument" gd ON dc."documentId" = gd.id` lookup. -/
def lookupDoc (docs : List GuidanceDoc) (d : String) : Option GuidanceDoc :=
  docs.find? (fun g => g.id == d)

/-- The `WHERE dc."documentId" = %s` clause, present only when the Python
`if document_id:` test is truthy. -/
def scopeOk (document_id : Option String) (r : PassageRow) : Bool :=
  if optTruthy document_id then r.documentId == document_id.getD "" else true

/-- Row filter of the retrieval query: optional document scope,
`dc.embedding IS NOT NULL`, and the inner join with `GuidanceDocument`. -/
def inScope (docs : List GuidanceDoc) (document_id : Option String)
    (r : PassageRow) : Bool :=
  scopeOk document_id r && r.embedding.isSome && (lookupDoc docs r.documentId).isSome

/-- Distance of a row's embedding to the query embedding, the pgvector
`dc.embedding <=> %s::vector` of the `ORDER BY`; `dist` is the external
operator. -/
def distTo (dist : Emb → Emb → ℚ) (qe : Emb) (r : PassageRow) : ℚ :=
  dist (r.embedding.getD []) qe

/-- One result dict of `search_similar_chunks`:
`similarity = 1 - (dc.embedding <=> query)`. -/
def rowToChunk (dist : Emb → Emb → ℚ) (decode : List Nat → String) (qe : Emb)
    (docs : List GuidanceDoc) (r : PassageRow) : RChunk :=
  let gd := (lookupDoc docs r.documentId).getD
    { id := "", title := "", fdaDocumentId := "" }
  { id := r.id, document_id := r.documentId, content := decode r.content,
    page_start := r.pageStart, section_title := r.sectionTitle,
    chunk_index := r.chunkIndex, title := gd.title,
    fda_document_id := gd.fdaDocumentId,
    similarity := 1 - distTo dist qe r }

/-- `RetrievalService.search_similar_chunks` over a fixed committed store:
embed the query, filter to in-scope rows with a non-null embedding, order
by ascending distance (`ORDER BY dc.embedding <=> %s::vector`, a stable
sort), truncate to `k` (`LIMIT %s`), and build the result dicts. -/
def searchSimilarChunks (dist : Emb → Emb → ℚ) (decode : List Nat → String)
    (embed : String → Emb) (query : String) (docs : List GuidanceDoc)
    (store : PassageStore) (document_id : Option String)
    (top_k : Option Nat) : List RChunk :=
  let k := effectiveTopK top_k defaultTopK
  let qe := embed query
  let filtered := store.filter (inScope docs document_id)
  let sorted := List.insertionSort
    (fun a b => distTo dist qe a ≤ distTo dist qe b) filtered
  (sorted.take k).map (rowToChunk dist decode qe docs)

/-- C4. Over any fixed store, `search_similar_chunks` returns at most `k`
results for a requested positive `k`, ordered by non-increasing similarity
(ascending distance), each coming from a stored row whose embedding is
non-null; and when no row in scope has an embedding it returns the empty
list rather than an error. -/
theorem search_ranking (dist : Emb → Emb → ℚ) (decode : List Nat → String)
    (embed : String → Emb) (query : String) (docs : List GuidanceDoc)
    (store : PassageStore) (document_id : Option String) (k : Nat)
    (hk : 0 < k) :
    ((searchSimilarChunks dist decode embed query docs store document_id
        (some k)).length ≤ k) ∧
    List.Pairwise (fun c d => d.similarity ≤ c.similarity)
      (searchSimilarChunks dist decode embed query docs store document_id
        (some k)) ∧
    (∀ c ∈ searchSimilarChunks dist decode embed query docs store document_id
        (some k),
      ∃ r ∈ store, r.embedding.isSome ∧
        c = rowToChunk dist decode (embed query) docs r) ∧
    ((∀ r ∈ store, scopeOk document_id r → r.embedding = none) →
      searchSimilarChunks dist decode embed query docs store document_id
        (some k) = []) := by
  have hkk : effectiveTopK (some k) defaultTopK = k := by
    have : k ≠ 0 := Nat.pos_iff_ne_zero.mp hk
    simp [effectiveTopK, this]
  set qe := embed query with hqe
  set le := fun a b => distTo dist qe a ≤ distTo dist qe b with hle
  haveI htot : IsTotal PassageRow le := ⟨fun a b => le_total _ _⟩
  haveI htrans : IsTrans PassageRow le := ⟨fun a b c hab hbc => le_trans hab hbc⟩
  set filtered := store.filter (inScope docs document_id) with hfil
  set sorted := List.insertionSort le filtered with hsort
  have hunfold : searchSimilarChunks dist decode embed query docs store
      document_id (some k) = (sorted.take k).map (rowToChunk dist decode qe docs) := by
    simp [searchSimilarChunks, hkk, hsort, hfil, hle, hqe]
  refine ⟨?_, ?_, ?_, ?_⟩
  · rw [hunfold]
    simp only [List.length_map]
    exact List.length_take_le k sorted
  · rw [hunfold]
    have hs : List.Sorted le sorted := List.sorted_insertionSort le filtered
    have hs2 : List.Pairwise le (sorted.take k) :=
      hs.sublist (List.take_sublist k sorted)
    refine List.Pairwise.map _ ?_ hs2
    intro a b hab
    simpa [rowToChunk] using sub_le_sub_left hab 1
  · rw [hunfold]
    intro c hc
    rcases List.mem_map.mp hc with ⟨r, hr, hrc⟩
    have hrs : r ∈ sorted := List.mem_of_mem_take hr
    have hrf : r ∈ filtered := ((List.perm_insertionSort le filtered).mem_iff).mp hrs
    rcases List.mem_filter.mp hrf with ⟨hrstore, hins⟩
    have hemb : r.embedding.isSome := by
      simp [inScope] at hins
      exact hins.1.2
    exact ⟨r, hrstore, hemb, hrc.symm⟩
  · intro hall
    have hnil : filtered = [] := by
      rw [hfil]
      apply List.filter_eq_nil_iff.mpr
      intro r hr
      simp [inScope]
      intro hscope hemb
      rcases Option.isSome_iff_exists.mp hemb with ⟨v, hv⟩
      rw [hall r hr hscope] at hv
      exact Option.noConfusion hv
    rw [hunfold, hsort, hnil]
    simp [List.insertionSort]

/-- C10. A request with `top_k = 0` does not limit the result to zero rows:
Python `top_k or self.top_k` treats `0` as falsy, so the service default 5
is used and the search behaves exactly as with `top_k = 5`; an omitted
`top_k` also falls back to the default, while any positive `top_k` is used
as given. -/
theorem top_k_zero_uses_default (dist : Emb → Emb → ℚ)
    (decode : List Nat → String) (embed : String → Emb) (query : String)
    (docs : List GuidanceDoc) (store : PassageStore)
    (document_id : Option String) :
    (searchSimilarChunks dist decode embed query docs store document_id
        (some 0) =
      searchSimilarChunks dist decode embed query docs store document_id
        (some 5)) ∧
    effectiveTopK none defaultTopK = defaultTopK ∧ defaultTopK = 5 ∧
    (∀ n : Nat, 0 < n → effectiveTopK (some n) defaultTopK = n) := by
  refine ⟨rfl, rfl, rfl, ?_⟩
  intro n hn
  have : n ≠ 0 := Nat.pos_iff_ne_zero.mp hn
  simp [effectiveTopK, this]

/-- Python truthiness of an `Optional[int]` (`chunk.get("page_start")`):
`None` and `0` are falsy. -/
def natOptTruthy : Option Nat → Bool
  | none => false
  | some n => !(n == 0)

/-- Suffix appended to a source label by `if chunk.get("title"):` — the
title is omitted when falsy (absent or empty). -/
def titleSuffix (c : RChunk) : String :=
  if c.title == "" then "" else " " ++ c.title

/-- Suffix appended to a source label by `if chunk.get("page_start"):`. -/
def pageSuffix (c : RChunk) : String :=
  if natOptTruthy c.page_start then
    " (Page " ++ toString (c.page_start.getD 0) ++ ")"
  else ""

/-- The label built for the `i`-th (0-based) chunk by
`LLMService.build_context`: `"[Source i+1]"`, then the title and page
when truthy. -/
def sourceLabel (i : Nat) (c : RChunk) : String :=
  "[Source " ++ toString (i + 1) ++ "]" ++ titleSuffix c ++ pageSuffix c

/-- The `context_parts` list of `build_context`, one block per chunk in
input order, the counter following Python's `enumerate`. -/
def contextParts : List RChunk → Nat → List String
  | [], _ => []
  | c :: cs, i => (sourceLabel i c ++ "\n" ++ c.content) :: contextParts cs (i + 1)

/-- `LLMService.build_context`. -/
def buildContext (chunks : List RChunk) : String :=
  String.intercalate "\n\n---\n\n" (contextParts chunks 0)

/-- The `Source` model returned by the synchronous `query_documents`. -/
structure Source where
  document_id : String
  title : String
  fda_document_id : String
  page : Option Nat
  content_preview : String
  similarity : ℚ
deriving DecidableEq

/-- The 200-character content preview of `query_documents`. -/
def contentPreview (s : String) : String :=
  if s.length > 200 then s.take 200 ++ "..." else s

/-- One element of the `sources` list of `query_documents`, built from the
same retrieval chunk list that `build_context` consumed. -/
def mkSource (c : RChunk) : Source :=
  { document_id := c.document_id, title := c.title,
    fda_document_id := c.fda_document_id, page := c.page_start,
    content_preview := contentPreview c.content, similarity := c.similarity }

/-- The `sources` list returned to the caller. -/
def mkSources (chunks : List RChunk) : List Source := chunks.map mkSource

theorem contextParts_length (cs : List RChunk) :
    ∀ n, (contextParts cs n).length = cs.length := by
  induction cs with
  | nil => intro n; rfl
  | cons c rest ih => intro n; simp [contextParts, ih (n + 1)]

theorem contextParts_getElem (cs : List RChunk) :
    ∀ (n i : Nat), (contextParts cs n)[i]? =
      (cs[i]?).map (fun c => sourceLabel (n + i) c ++ "\n" ++ c.content) := by
  induction cs with
  | nil => intro n i; simp [contextParts]
  | cons c rest ih =>
    intro n i
    cases i with
    | zero => simp [contextParts]
    | succ j =>
      simp only [contextParts, List.getElem?_cons_succ]
      rw [ih (n + 1) j]
      have harith : n + 1 + j = n + (j + 1) := by omega
      rw [harith]

/-- C5. For every chunk list, block `i` (0-based) of the context is labelled
`[Source i+1]` — the 1-based index reflecting input order — followed by the
title and page when present, then that chunk's content; and element `i` of
the `sources` list returned to the caller is built from the same chunk, so
the `i+1`-th label corresponds exactly to the `i`-th source.  A falsy
(absent) title or page is omitted from the label. -/
theorem context_labels_match_sources (chunks : List RChunk)
    (_hne : chunks ≠ []) :
    (contextParts chunks 0).length = chunks.length ∧
    (mkSources chunks).length = chunks.length ∧
    (∀ i, i < chunks.length →
      ∃ c, chunks[i]? = some c ∧
        (contextParts chunks 0)[i]? =
          some ("[Source " ++ toString (i + 1) ++ "]" ++ titleSuffix c ++
            pageSuffix c ++ "\n" ++ c.content) ∧
        (mkSources chunks)[i]? = some (mkSource c)) ∧
    (∀ i c, c.title = "" → c.page_start = none →
      sourceLabel i c = "[Source " ++ toString (i + 1) ++ "]") := by
  refine ⟨contextParts_length chunks 0, by simp [mkSources], ?_, ?_⟩
  · intro i hi
    refine ⟨chunks[i], by simp [List.getElem?_eq_getElem hi], ?_, ?_⟩
    · rw [contextParts_getElem chunks 0 i]
      simp [List.getElem?_eq_getElem hi, sourceLabel]
    · simp [mkSources, List.getElem?_eq_getElem hi]
  · intro i c ht hp
    simp [sourceLabel, titleSuffix, pageSuffix, ht, hp, natOptTruthy]

/-- Witness for C2: a store holding one row of document `d1`; with every
insert succeeding the transaction commits the replaced row set, and with a
failing insert the committed store is untouched. -/
theorem replace_document_passages_atomic_witness :
    ((runTxn [oldRow] (storeChunksBody "d1" (fun _ => "cid") (fun _ => true)
        [{ content := [1], page_start := some 1, section_title := none,
           chunk_index := 0, token_count := 1 }] [[(1 : ℚ)]])).1 =
      [oldRow].filter (fun r => !(r.documentId == "d1")) ++
        mkRows "d1" (fun _ => "cid")
          ([({ content := [1], page_start := some 1, section_title := none,
               chunk_index := 0, token_count := 1 } : Chunk)].zip [[(1 : ℚ)]])
          0) ∧
    (runTxn [oldRow] (storeChunksBody "d1" (fun _ => "cid") (fun _ => false)
        [{ content := [1], page_start := some 1, section_title := none,
           chunk_index := 0, token_count := 1 }] [[(1 : ℚ)]])).1 = [oldRow] :=
  ⟨(replace_document_passages_atomic "d1" (fun _ => "cid") (fun _ => true)
      [{ content := [1], page_start := some 1, section_title := none,
         chunk_index := 0, token_count := 1 }] [[(1 : ℚ)]] [oldRow]).2.1 rfl,
   (replace_document_passages_atomic "d1" (fun _ => "cid") (fun _ => false)
      [{ content := [1], page_start := some 1, section_title := none,
         chunk_index := 0, token_count := 1 }] [[(1 : ℚ)]] [oldRow]).1 rfl⟩

/-- Witness for C4: a concrete search (empty store, `k = 3`) returns at most
3 results. -/
theorem search_ranking_witness :
    (searchSimilarChunks (fun _ _ => 0) (fun _ => "") (fun _ => []) "q" [] []
        none (some 3)).length ≤ 3 :=
  (search_ranking (fun _ _ => 0) (fun _ => "") (fun _ => []) "q" [] [] none 3
    (by decide)).1

/-- Witness for C5: a concrete one-chunk context has exactly one block. -/
theorem context_labels_match_sources_witness :
    (contextParts
        [{ id := "c1", document_id := "d1", content := "x",
           page_start := some 2, section_title := none, chunk_index := 0,
           title := "T", fda_document_id := "F", similarity := 1 }] 0).length =
      ([{ id := "c1", document_id := "d1", content := "x",
          page_start := some 2, section_title := none, chunk_index := 0,
          title := "T", fda_document_id := "F",
          similarity := 1 }] : List RChunk).length :=
  (context_labels_match_sources
    [{ id := "c1", document_id := "d1", content := "x", page_start := some 2,
       section_title := none, chunk_index := 0, title := "T",
       fda_document_id := "F", similarity := 1 }] (by decide)).1

/-- Witness for C6: a concrete successful exchange appends exactly the user
and assistant messages. -/
theorem query_persistence_all_or_nothing_witness :
    (saveExchange none "q" "a" "f" "u1" "u2" 5 (fun _ => true)
        ⟨[], []⟩).2.1.messages =
      (⟨[], []⟩ : ChatStore).messages ++
        [{ id := "u1",
           sessionId := (saveExchange none "q" "a" "f" "u1" "u2" 5
             (fun _ => true) ⟨[], []⟩).1,
           role := "user", content := "q", createdAt := 5 },
         { id := "u2",
           sessionId := (saveExchange none "q" "a" "f" "u1" "u2" 5
             (fun _ => true) ⟨[], []⟩).1,
           role := "assistant", content := "a", createdAt := 5 }] :=
  (query_persistence_all_or_nothing none "q" "a" "f" "u1" "u2" 5
    (fun _ => true) ⟨[], []⟩).2 rfl

/-- Witness for the amended C7: with no caller-supplied session id, a session
record with the fresh id exists after a successful exchange. -/
theorem session_record_only_when_id_unsupplied_witness :
    ∃ s ∈ (saveExchange none "q" "a" "f" "u1" "u2" 5 (fun _ => true)
        ⟨[], []⟩).2.1.sessions, s.id = "f" :=
  (session_record_only_when_id_unsupplied none "q" "a" "f" "u1" "u2" 5
    (fun _ => true) ⟨[], []⟩).1 rfl rfl

/-- Witness for the amended C8: a concrete successful exchange, with both
message timestamps equal to the transaction time. -/
theorem exchange_message_timestamps_share_transaction_time_witness :
    ∃ u asst : ChatMessageRow,
      (saveExchange (some "s9") "q" "a" "f" "u1" "u2" 7 (fun _ => true)
          ⟨[⟨"s9", 1, 1⟩], []⟩).2.1.messages =
        (⟨[⟨"s9", 1, 1⟩], []⟩ : ChatStore).messages ++ [u, asst] ∧
      u.role = "user" ∧ asst.role = "assistant" ∧
      u.createdAt = 7 ∧ asst.createdAt = 7 ∧
      u.createdAt ≤ asst.createdAt ∧ ¬u.createdAt < asst.createdAt :=
  exchange_message_timestamps_share_transaction_time (some "s9") "q" "a" "f"
    "u1" "u2" 7 (fun _ => true) ⟨[⟨"s9", 1, 1⟩], []⟩ rfl

/-- Witness for C10: a positive requested `top_k` is used as given. -/
theorem top_k_zero_uses_default_witness :
    effectiveTopK (some 3) defaultTopK = 3 :=
  (top_k_zero_uses_default (fun _ _ => 0) (fun _ => "") (fun _ => []) "q" []
    [] none).2.2.2 3 (by decide)

end FdaRag

